import Mathlib

/-!
# Shallow embedding of the framework-consultant scoring core

This file embeds the deterministic scoring code of the repository
(`backend/services/scoring_peer.py`, `backend/services/scoring.py`,
`backend/api.py`, `backend/app_agents/scoring_agent.py`) in Lean 4 and
proves the spec's claims about it.

Modelling conventions:
* Python `float` is modelled as `ℚ`: every constant in the scoring tables
  is a small decimal and the claims under study are order/interval facts
  that hold for exact arithmetic.
* Python's stable `list.sort(key=..., reverse=True)` is modelled by
  `List.insertionSort` with the non-strict descending relation: any two
  stable sorts agree, so this is the same function as CPython's timsort
  on the sort keys used here.
* Python's `round` (round-half-to-even) is modelled by `pyRound`.
* Calls into external collaborators (the Chroma vector store, the LLM
  runtime) are modelled as explicit parameters: retrieval results and
  LLM outputs are inputs of the embedded functions.
-/

namespace FrameworkConsultant

/-- Substring test on `List Char`: does `hay` start with `needle`? -/
def listStartsWith : List Char → List Char → Bool
  | [], _ => true
  | _ :: _, [] => false
  | a :: as, b :: bs => a == b && listStartsWith as bs

/-- Python's `needle in hay` substring containment on character lists. -/
def listHasSub (needle : List Char) : List Char → Bool
  | [] => needle.isEmpty
  | b :: bs => listStartsWith needle (b :: bs) || listHasSub needle bs

/-- Python's `needle in hay` on strings. -/
def strHasSub (hay needle : String) : Bool :=
  listHasSub needle.toList hay.toList

/-- Python's `s.lower()` (ASCII, which covers every string the scorer
compares); character-list variant of `String.toLower`, kept
kernel-reducible so concrete witnesses evaluate. -/
def strLower (s : String) : String :=
  ⟨s.toList.map Char.toLower⟩

/-- Python's `s.strip()`: drop leading and trailing whitespace;
kernel-reducible variant of `String.trim`. -/
def strTrim (s : String) : String :=
  ⟨((s.toList.dropWhile Char.isWhitespace).reverse.dropWhile Char.isWhitespace).reverse⟩

/-- Split a character list at every separator character, keeping empty
parts — the semantics of `re.split` on a single-character class and of
`String.split`. -/
def listSplit (p : Char → Bool) : List Char → List (List Char)
  | [] => [[]]
  | c :: cs =>
    let r := listSplit p cs
    if p c then [] :: r
    else
      match r with
      | [] => [[c]]
      | x :: xs => (c :: x) :: xs

/-- Python `round` on an exact rational: round half to even. -/
def pyRound (q : ℚ) : ℤ :=
  if q - ⌊q⌋ < 1 / 2 then ⌊q⌋
  else if 1 / 2 < q - ⌊q⌋ then ⌊q⌋ + 1
  else if ⌊q⌋ % 2 = 0 then ⌊q⌋ else ⌊q⌋ + 1

/-- `max lo (min hi x)`, the clamp idiom `max(0, min(100, x))` of the source. -/
def pyClamp (lo hi x : ℤ) : ℤ := max lo (min hi x)

/-- Python `max()` over a list of floats (the call sites guard emptiness). -/
def pyListMax : List ℚ → ℚ
  | [] => 1
  | x :: xs => xs.foldl max x

/-!
## `backend/services/scoring_peer.py`

The capability axes are the fixed key set of the `CAP` table.
-/

/-- One capability axis of the `CAP` vectors in `scoring_peer.py`. -/
inductive CapKey
  | rag | tools | workflow | multi_agent | enterprise
  | low_code | ecosystem | observability | privacy_onprem | ease_beginner
deriving DecidableEq, Fintype

/-- A capability vector: every framework in `CAP` defines all ten axes. -/
abbrev Cap := CapKey → ℚ

/-- A weight vector: a finite mapping from some axes to weights,
as the `WEIGHTS` dicts in `scoring_peer.py`. -/
abbrev WeightVec := List (CapKey × ℚ)

def langChainCap : Cap := fun k => match k with
  | .rag => 0.95 | .tools => 0.85 | .workflow => 0.55 | .multi_agent => 0.55
  | .enterprise => 0.70 | .low_code => 0.20 | .ecosystem => 0.95 | .observability => 0.65
  | .privacy_onprem => 0.60 | .ease_beginner => 0.75

def langGraphCap : Cap := fun k => match k with
  | .rag => 0.75 | .tools => 0.80 | .workflow => 0.75 | .multi_agent => 0.90
  | .enterprise => 0.70 | .low_code => 0.15 | .ecosystem => 0.70 | .observability => 0.70
  | .privacy_onprem => 0.65 | .ease_beginner => 0.40

def googleAdkCap : Cap := fun k => match k with
  | .rag => 0.60 | .tools => 0.75 | .workflow => 0.70 | .multi_agent => 0.65
  | .enterprise => 0.80 | .low_code => 0.25 | .ecosystem => 0.65 | .observability => 0.75
  | .privacy_onprem => 0.70 | .ease_beginner => 0.65

def n8nCap : Cap := fun k => match k with
  | .rag => 0.30 | .tools => 0.65 | .workflow => 0.95 | .multi_agent => 0.25
  | .enterprise => 0.70 | .low_code => 0.90 | .ecosystem => 0.70 | .observability => 0.55
  | .privacy_onprem => 0.75 | .ease_beginner => 0.80

def crewAiCap : Cap := fun k => match k with
  | .rag => 0.50 | .tools => 0.65 | .workflow => 0.55 | .multi_agent => 0.85
  | .enterprise => 0.55 | .low_code => 0.15 | .ecosystem => 0.55 | .observability => 0.50
  | .privacy_onprem => 0.55 | .ease_beginner => 0.45

def openAiSdkCap : Cap := fun k => match k with
  | .rag => 0.60 | .tools => 0.75 | .workflow => 0.70 | .multi_agent => 0.75
  | .enterprise => 0.70 | .low_code => 0.10 | .ecosystem => 0.70 | .observability => 0.60
  | .privacy_onprem => 0.45 | .ease_beginner => 0.65

def claudeSdkCap : Cap := fun k => match k with
  | .rag => 0.60 | .tools => 0.70 | .workflow => 0.60 | .multi_agent => 0.65
  | .enterprise => 0.65 | .low_code => 0.10 | .ecosystem => 0.60 | .observability => 0.55
  | .privacy_onprem => 0.50 | .ease_beginner => 0.65

def cognigyCap : Cap := fun k => match k with
  | .rag => 0.45 | .tools => 0.85 | .workflow => 0.75 | .multi_agent => 0.35
  | .enterprise => 0.85 | .low_code => 0.85 | .ecosystem => 0.70 | .observability => 0.75
  | .privacy_onprem => 0.60 | .ease_beginner => 0.80

/-- The `CAP` dict: capability vector of each known framework. -/
def CAP : String → Option Cap := fun s => match s with
  | "LangChain" => some langChainCap
  | "LangGraph" => some langGraphCap
  | "Google ADK" => some googleAdkCap
  | "n8n" => some n8nCap
  | "CrewAI" => some crewAiCap
  | "OpenAI Agents SDK" => some openAiSdkCap
  | "Claude Agent SDK" => some claudeSdkCap
  | "Cognigy" => some cognigyCap
  | _ => none

/-- `FRAMEWORKS = sorted(ALLOWED_FRAMEWORKS)`: the allowlist in Python's
string order. -/
def FRAMEWORKS : List String :=
  ["Claude Agent SDK", "Cognigy", "CrewAI", "Google ADK",
   "LangChain", "LangGraph", "OpenAI Agents SDK", "n8n"]

def wAgentChatSupport : WeightVec :=
  [(.enterprise, 0.20), (.low_code, 0.15), (.tools, 0.15), (.ease_beginner, 0.20), (.observability, 0.10)]
def wAgentDataDocument : WeightVec :=
  [(.rag, 0.35), (.tools, 0.15), (.observability, 0.10), (.enterprise, 0.10)]
def wAgentWorkflow : WeightVec :=
  [(.workflow, 0.40), (.low_code, 0.20), (.tools, 0.10), (.enterprise, 0.10)]
def wAgentResearch : WeightVec :=
  [(.tools, 0.20), (.ecosystem, 0.20), (.observability, 0.10), (.multi_agent, 0.10)]
def wAgentMultiAgent : WeightVec :=
  [(.multi_agent, 0.45), (.workflow, 0.10), (.tools, 0.10), (.observability, 0.10)]

def wDerivedRag : WeightVec := [(.rag, 0.35), (.tools, 0.10)]
def wDerivedAutomation : WeightVec := [(.workflow, 0.30), (.low_code, 0.15)]
def wDerivedMulti : WeightVec := [(.multi_agent, 0.25)]

def wSkillBeginner : WeightVec := [(.ease_beginner, 0.25), (.low_code, 0.10)]
def wSkillExpert : WeightVec := [(.multi_agent, 0.10), (.workflow, 0.10), (.observability, 0.10)]

def wPrioIntegration : WeightVec := [(.workflow, 0.15), (.tools, 0.10), (.ecosystem, 0.10)]
def wPrioRag : WeightVec := [(.rag, 0.20)]
def wPrioMultiAgent : WeightVec := [(.multi_agent, 0.20)]
def wPrioDatenschutz : WeightVec := [(.privacy_onprem, 0.20), (.enterprise, 0.10)]
def wPrioSpeed : WeightVec := [(.low_code, 0.10), (.workflow, 0.10), (.tools, 0.05)]
def wPrioMemory : WeightVec := [(.rag, 0.10), (.observability, 0.05)]

/-- `WEIGHTS.get(f"agent_type:{bucket}", {})`. -/
def agentTypeWeights (bucket : String) : WeightVec :=
  match bucket with
  | "chat_support" => wAgentChatSupport
  | "data_document" => wAgentDataDocument
  | "workflow" => wAgentWorkflow
  | "research_analysis" => wAgentResearch
  | "multi_agent" => wAgentMultiAgent
  | _ => []

/-- `_dot(cap, w) = sum(cap.get(k, 0.0) * v for k, v in w.items())`;
every key of every weight vector is a capability axis, and `Cap` is total. -/
def dot (cap : Cap) (w : WeightVec) : ℚ :=
  (w.map (fun kv => cap kv.1 * kv.2)).sum

/-- `map_agent_type_to_bucket` of `scoring_peer.py`. -/
def map_agent_type_to_bucket (agent_type : String) : String :=
  let t := strLower (strTrim agent_type)
  if t = "chatbot" ∨ t = "chat" then "chat_support"
  else if strHasSub t "workflow" then "workflow"
  else if strHasSub t "multi" then "multi_agent"
  else if strHasSub t "analyse" || strHasSub t "analysis" then "research_analysis"
  else if strHasSub t "daten" || strHasSub t "data" then "data_document"
  else "chat_support"

/-- The result record of `derive_flags`. -/
structure Flags where
  rag_required : Bool
  automation_high : Bool
  multi_agent : Bool
deriving DecidableEq

/-- The keyword list tested for `rag_required` in `derive_flags`. -/
def ragKeywords : List String :=
  ["dokument", "docs", "knowledge", "wiki", "sharepoint", "retrieval", "suche", "search"]

/-- The keyword list tested for `automation_high` in `derive_flags`. -/
def automationKeywords : List String :=
  ["workflow", "automatis", "integration", "n8n"]

/-- The keyword list tested for `multi_agent` in `derive_flags`. -/
def multiKeywords : List String :=
  ["multi-agent", "multi agent", "orchestr", "crew"]

/-- `derive_flags(use_case_text, priorities, agent_type_bucket)` of
`scoring_peer.py`.  `set(priorities)` is only used for membership, so the
priority list itself is kept. -/
def derive_flags (use_case_text : String) (priorities : List String)
    (agent_type_bucket : String) : Flags :=
  let text := strLower use_case_text
  { rag_required := priorities.contains "rag"
      || ragKeywords.any (fun k => strHasSub text k)
    automation_high := priorities.contains "tools"
      || automationKeywords.any (fun k => strHasSub text k)
    multi_agent := priorities.contains "multi"
      || agent_type_bucket == "multi_agent"
      || multiKeywords.any (fun k => strHasSub text k) }

/-- The skill branch of `score_frameworks`: `(skill_level or "").lower()`
selects the beginner/expert vector or none. -/
def skillWeights (skill_level : Option String) : List WeightVec :=
  match strLower (skill_level.getD "") with
  | "beginner" => [wSkillBeginner]
  | "expert" => [wSkillExpert]
  | _ => []

/-- The priority branch of `score_frameworks`: each de-duplicated priority
key that matches one of the six known keys appends one vector. -/
def prioWeights? (p : String) : Option WeightVec :=
  match p with
  | "tools" => some wPrioIntegration
  | "rag" => some wPrioRag
  | "multi" => some wPrioMultiAgent
  | "privacy" => some wPrioDatenschutz
  | "speed" => some wPrioSpeed
  | "memory" => some wPrioMemory
  | _ => none

/-- The `active` list of weight vectors assembled by `score_frameworks`.
Python iterates `set(priorities)` in unspecified order; the order only
determines the order of summands of an exact sum, so the first-occurrence
order of `List.dedup` is a faithful choice. -/
def activeWeights (agent_type : String) (priorities : List String)
    (use_case_text : String) (skill_level : Option String) : List WeightVec :=
  let agent_bucket := map_agent_type_to_bucket agent_type
  let derived := derive_flags use_case_text priorities agent_bucket
  [agentTypeWeights agent_bucket]
    ++ (if derived.rag_required then [wDerivedRag] else [])
    ++ (if derived.automation_high then [wDerivedAutomation] else [])
    ++ (if derived.multi_agent then [wDerivedMulti] else [])
    ++ skillWeights skill_level
    ++ priorities.dedup.filterMap prioWeights?

/-- One framework's raw score: the dot products of the active vectors plus
the `0.05` baseline. -/
def rawTotal (active : List WeightVec) (cap : Cap) : ℚ :=
  (active.map (fun w => dot cap w)).sum + 0.05

/-- The `raw_scores` dict of `score_frameworks`, in `FRAMEWORKS` (insertion)
order; a framework without a capability vector is skipped. -/
def rawScores (agent_type : String) (priorities : List String)
    (use_case_text : String) (skill_level : Option String) : List (String × ℚ) :=
  FRAMEWORKS.filterMap fun fw =>
    (CAP fw).map fun cap =>
      (fw, rawTotal (activeWeights agent_type priorities use_case_text skill_level) cap)

/-- `mx = max(raw_scores.values()) if raw_scores else 1.0`. -/
def scoreDivisor (agent_type : String) (priorities : List String)
    (use_case_text : String) (skill_level : Option String) : ℚ :=
  pyListMax ((rawScores agent_type priorities use_case_text skill_level).map Prod.snd)

/-- One entry of the list returned by `score_frameworks`. -/
structure ScoredFramework where
  framework : String
  score : ℚ
deriving DecidableEq

/-- `max(0.0, min(1.0, x))`. -/
def qclamp (x : ℚ) : ℚ := max 0 (min 1 x)

/-- Descending order on normalized scores: the sort key of
`results.sort(key=lambda x: x["score"], reverse=True)`. -/
def scoreDesc (x y : ScoredFramework) : Prop := y.score ≤ x.score

instance : DecidableRel scoreDesc := fun x y => inferInstanceAs (Decidable (y.score ≤ x.score))

instance : IsTotal ScoredFramework scoreDesc := ⟨fun a b => le_total b.score a.score⟩

instance : IsTrans ScoredFramework scoreDesc :=
  ⟨fun _ _ _ h h2 => le_trans h2 h⟩

/-- `score_frameworks(agent_type, priorities, use_case_text, skill_level)`
of `scoring_peer.py`. -/
def score_frameworks (agent_type : String) (priorities : List String)
    (use_case_text : String) (skill_level : Option String) : List ScoredFramework :=
  let raw := rawScores agent_type priorities use_case_text skill_level
  let mx := scoreDivisor agent_type priorities use_case_text skill_level
  let results := raw.map fun nv => { framework := nv.1, score := qclamp (nv.2 / mx) }
  List.insertionSort scoreDesc results

/-!
## The Bewertungsmatrix scorer

`backend/services/scoring.py` and the `_`-prefixed copies in
`backend/api.py` (`_avg_weights`, `_get_agent_mult`, `_get_skill_mult`,
`_score_framework_dims`, `_rank_all_frameworks`,
`_rank_bosch_use_cases_matrix`) are line-for-line the same logic; each
definition below embeds both copies.
-/

/-- One of the six scoring dimensions `D1`..`D6`. -/
inductive Dim
  | D1 | D2 | D3 | D4 | D5 | D6
deriving DecidableEq, Fintype

/-- `DIMS = ["D1", ..., "D6"]`. -/
def DIMS : List Dim := [.D1, .D2, .D3, .D4, .D5, .D6]

/-- `PRIORITY_WEIGHTS_BY_KEY.get(p)`: the per-dimension weight vector of a
known priority key, `none` for an unknown one. -/
def priorityWeights? (p : String) : Option (Dim → ℚ) :=
  match p with
  | "speed" => some fun d => match d with
      | .D1 => 2.5 | .D2 => 0.75 | .D3 => 0.75 | .D4 => 0.75 | .D5 => 0.75 | .D6 => 1.5
  | "tools" => some fun d => match d with
      | .D1 => 0.75 | .D2 => 2.5 | .D3 => 0.75 | .D4 => 0.75 | .D5 => 1.5 | .D6 => 0.75
  | "memory" => some fun d => match d with
      | .D1 => 0.75 | .D2 => 0.75 | .D3 => 2.0 | .D4 => 1.0 | .D5 => 0.75 | .D6 => 0.75
  | "rag" => some fun d => match d with
      | .D1 => 0.75 | .D2 => 0.75 | .D3 => 2.2 | .D4 => 1.0 | .D5 => 0.75 | .D6 => 0.75
  | "multi" => some fun d => match d with
      | .D1 => 0.8 | .D2 => 1.0 | .D3 => 1.0 | .D4 => 2.2 | .D5 => 1.2 | .D6 => 1.0
  | "privacy" => some fun _ => 1.0
  | _ => none

/-- `avg_weights(priorities)`: the average, over the given priorities, of
each priority's weight vector (all-1.0 for an unknown key); all-1.0 when no
priorities are given. -/
def avg_weights (priorities : List String) (d : Dim) : ℚ :=
  match priorities with
  | [] => 1
  | _ =>
    ((priorities.map fun p => ((priorityWeights? p).getD fun _ => 1) d).sum)
      / priorities.length

/-- `AGENT_TYPE_MULTIPLIERS.get(agent_type, all-1.0)`. -/
def get_agent_mult (agent_type : String) (d : Dim) : ℚ :=
  match agent_type with
  | "Workflow-Agent" => (match d with
      | .D1 => 1.2 | .D2 => 1.3 | .D3 => 1.0 | .D4 => 0.7 | .D5 => 0.8 | .D6 => 1.0)
  | "Multi-Agent-System" => (match d with
      | .D1 => 0.8 | .D2 => 1.0 | .D3 => 1.0 | .D4 => 1.4 | .D5 => 1.2 | .D6 => 1.0)
  | "Daten-Agent" => (match d with
      | .D1 => 1.0 | .D2 => 1.1 | .D3 => 1.4 | .D4 => 1.0 | .D5 => 1.0 | .D6 => 1.0)
  | "Analyse-Agent" => (match d with
      | .D1 => 1.0 | .D2 => 1.0 | .D3 => 1.2 | .D4 => 1.0 | .D5 => 1.3 | .D6 => 1.0)
  | "Chatbot" => (match d with
      | .D1 => 1.2 | .D2 => 1.0 | .D3 => 1.0 | .D4 => 1.0 | .D5 => 1.0 | .D6 => 1.1)
  | "unknown" => 1.0
  | _ => 1.0

/-- `get_skill_mult(skill_level)`: `SKILL_MULTIPLIERS.get(skill_level,
all-1.0)`, all-1.0 for a falsy level. -/
def get_skill_mult (skill_level : Option String) (d : Dim) : ℚ :=
  match skill_level with
  | none => 1
  | some lvl =>
    match lvl with
    | "beginner" => (match d with
        | .D1 => 1.2 | .D2 => 1.0 | .D3 => 1.0 | .D4 => 1.0 | .D5 => 0.8 | .D6 => 1.4)
    | "intermediate" => 1.0
    | "expert" => (match d with
        | .D1 => 1.0 | .D2 => 1.0 | .D3 => 1.0 | .D4 => 1.2 | .D5 => 1.4 | .D6 => 0.8)
    | _ => 1.0

/-- `score_dims` / `_score_framework_dims`: the per-dimension contribution
`base * weight * agent_mult * skill_mult` and its total over `DIMS`. -/
def score_dims (dims : Dim → ℤ) (weights agent_mult skill_mult : Dim → ℚ) :
    ℚ × (Dim → ℚ) :=
  let per := fun d => (dims d : ℚ) * weights d * agent_mult d * skill_mult d
  ((DIMS.map per).sum, per)

/-- The request model of `backend/api.py` (`AgentRequest`). -/
structure AgentRequest where
  agent_type : String
  priorities : List String
  use_case : String
  experience_level : Option String
  learning_preference : Option String
  force_frameworks : Bool

/-- A framework factsheet as `_load_framework_factsheets_from_chroma` /
`load_framework_factsheets` build it from the vector store's metadata:
`dims = {d: int(meta.get(d, 3)) for d in DIMS}` is an unclamped integer per
dimension. The store itself is external, so the factsheet list is a
parameter of the ranking functions. -/
structure Factsheet where
  framework : String
  dims : Dim → ℤ
  url : Option String

/-- Descending order on the raw total, the sort key of
`scored.sort(key=lambda x: x[1], reverse=True)`. -/
def totalDesc {α : Type} (x y : α × ℚ) : Prop := y.2 ≤ x.2

instance {α : Type} : DecidableRel (totalDesc (α := α)) :=
  fun x y => inferInstanceAs (Decidable (y.2 ≤ x.2))

instance {α : Type} : IsTotal (α × ℚ) totalDesc := ⟨fun a b => le_total b.2 a.2⟩

instance {α : Type} : IsTrans (α × ℚ) totalDesc := ⟨fun _ _ _ h h2 => le_trans h2 h⟩

/-- `scored[0][1] if scored else 1.0`: the best raw total of the sorted
candidate batch. -/
def batchBest {α : Type} (sorted : List (α × ℚ)) : ℚ :=
  match sorted with
  | [] => 1
  | x :: _ => x.2

/-- `best = scored[0][1] if scored else 1.0; if best <= 0: best = 1.0` —
the guarded normalization divisor of both `rank_*` functions, taken on the
already sorted candidate list. -/
def guardedBest {α : Type} (sorted : List (α × ℚ)) : ℚ :=
  if batchBest sorted ≤ 0 then 1 else batchBest sorted

/-- The scored candidates of `rank_all_frameworks`, sorted descending. -/
def rankedFacts (req : AgentRequest) (facts : List Factsheet) :
    List (Factsheet × ℚ) :=
  let weights := avg_weights req.priorities
  let a_mult := get_agent_mult req.agent_type
  let s_mult := get_skill_mult req.experience_level
  List.insertionSort totalDesc
    (facts.map fun fw => (fw, (score_dims fw.dims weights a_mult s_mult).1))

/-- One output row of `rank_all_frameworks` (the prose/breakdown fields that
only replay inputs are omitted). -/
structure RankedFramework where
  framework : String
  url : Option String
  score_total : ℚ
  match_percent : ℤ
  score : ℚ
deriving DecidableEq

/-- `rank_all_frameworks` of `services/scoring.py` = `_rank_all_frameworks`
of `api.py`, with the factsheet list (external store data) as parameter. -/
def rank_all_frameworks (req : AgentRequest) (facts : List Factsheet) :
    List RankedFramework :=
  if facts.isEmpty then []
  else
    let sorted := rankedFacts req facts
    let best := guardedBest sorted
    sorted.map fun ft =>
      let mp := pyClamp 0 100 (pyRound (ft.2 / best * 100))
      { framework := ft.1.framework
        url := ft.1.url
        score_total := ft.2
        match_percent := mp
        score := (mp : ℚ) / 100 }

/-!
### Use-case candidates (`_use_case_raw_dims`, `_rank_bosch_use_cases_matrix`)
-/

/-- `_norm(s) = re.sub(r"\s+", " ", s.lower()).strip()`: lowercase, collapse
whitespace runs, strip — equivalently join the whitespace-split words. -/
def pyNorm (s : String) : String :=
  " ".intercalate
    (((listSplit Char.isWhitespace (strLower s).toList).map fun l => (⟨l⟩ : String)).filter
      fun w => !w.isEmpty)

/-- The metadata fields of a use-case candidate that the scorer reads
(`tags`, `maturity`, `experience_level`, `learning_preference`); a missing
key is `none`. -/
structure UCMeta where
  tags : Option String
  maturity : Option String
  experience_level : Option String
  learning_preference : Option String

/-- `_tags_set(meta)`: normalize the raw tags string and split it on
`,`/`;`/`|` into trimmed non-empty parts (membership is all that is used,
so the list stands for the Python set). -/
def tagsSet (meta : UCMeta) : List String :=
  ((listSplit (fun c => c = ',' || c = ';' || c = '|')
      (pyNorm (meta.tags.getD "")).toList).map fun l => strTrim ⟨l⟩).foldr
    (fun t acc => if t.isEmpty then acc else t :: acc) []

/-- `_has_any(text, kws)`: some keyword is a substring of `_norm(text)`. -/
def hasAny (text : String) (kws : List String) : Bool :=
  kws.any fun k => strHasSub (pyNorm text) k

/-- `_bucket_score(strong, medium, weak)`. -/
def bucket_score (strong medium weak : Bool) : ℤ :=
  if strong then 5 else if medium then 4 else if weak then 3 else 2

/-- `_use_case_raw_dims(doc_text, meta)` of `api.py`: six raw dimension
scores derived from keyword/tag heuristics, adjusted for beginner
experience and "simple" learning preference, clamped to `[1, 5]`. -/
def use_case_raw_dims (doc_text : String) (meta : UCMeta) : Dim → ℤ :=
  let text := pyNorm doc_text
  let tags := tagsSet meta
  let maturity := pyNorm (meta.maturity.getD "unknown")
  let exp := pyNorm (meta.experience_level.getD "unknown")
  let learn := pyNorm (meta.learning_preference.getD "unknown")
  let d1 := bucket_score
    (hasAny text ["low effort", "quick", "fast", "short time", "schnell", "geringem aufwand"])
    (hasAny text ["standard", "template", "out of the box", "schnell umgesetzt", "kurz"])
    (tags.contains "onboarding" || tags.contains "assistant")
  let d2 := bucket_score
    (tags.contains "sharepoint"
      || hasAny text ["connector", "connectors", "integration", "integrationen", "sharepoint", "tools"])
    (hasAny text ["sources", "quellen", "datenquellen", "api", "workflow"])
    (tags.contains "search")
  let d3 := bucket_score
    (tags.contains "rag" || tags.contains "documentation" || tags.contains "qa"
      || tags.contains "knowledge" || hasAny text ["rag", "retrieval", "dokument", "knowledge"])
    (tags.contains "knowledge-management"
      || hasAny text ["handbuch", "manual", "spec", "wissensartikel", "troubleshooting"])
    (tags.contains "search" || hasAny text ["suche", "search"])
  let d4 := bucket_score
    (tags.contains "multi-agent" || hasAny text ["multi-agent", "orchestr", "planner"])
    (tags.contains "workflow" || hasAny text ["workflow", "pipeline", "automation"])
    (hasAny text ["agent"])
  let d5 := bucket_score
    (tags.contains "privacy" || tags.contains "security" || tags.contains "compliance"
      || hasAny text ["privacy", "datenschutz", "compliance", "on-prem", "security"])
    (hasAny text ["permissions", "berechtigung", "rechte", "access", "policy"])
    false
  let d6 := bucket_score
    (strHasSub maturity "production"
      || hasAny text ["works very good", "very good", "gute ergebnisse", "effective", "in der praxis möglich"])
    (hasAny text ["achieved", "implemented", "standard"]
      || !(maturity = "" || maturity = "unknown"))
    (hasAny text ["needs clarification", "must be clarified", "challenges", "müssen geklärt",
      "klarification", "connector- und berechtigungsfragen"])
  let d6a := if exp = "beginner" then min 5 (d6 + 1) else d6
  let d1a := if learn = "simple" then min 5 (d1 + 1) else d1
  fun d =>
    max 1 (min 5 (match d with
      | .D1 => d1a | .D2 => d2 | .D3 => d3 | .D4 => d4 | .D5 => d5 | .D6 => d6a))

/-- A retrieved use-case candidate (`_retrieve_bosch_use_cases` output):
the retrieval store is external, so candidates are a parameter. -/
structure UCCandidate where
  title : String
  summary : String
  metadata : UCMeta

/-- The scored use-case candidates of `_rank_bosch_use_cases_matrix`,
sorted descending. -/
def rankedUseCases (req : AgentRequest) (candidates : List UCCandidate) :
    List (UCCandidate × ℚ) :=
  let weights := avg_weights req.priorities
  let a_mult := get_agent_mult req.agent_type
  let s_mult := get_skill_mult req.experience_level
  List.insertionSort totalDesc
    (candidates.map fun uc =>
      (uc, (score_dims (use_case_raw_dims uc.summary uc.metadata) weights a_mult s_mult).1))

/-- One output row of `_rank_bosch_use_cases_matrix` (debug/breakdown
fields that only replay inputs are omitted). -/
structure RankedUseCase where
  title : String
  summary : String
  score_total : ℚ
  match_percent : ℤ
  score : ℚ

/-- `_rank_bosch_use_cases_matrix(req, query, retrieval_n, top_k)` of
`api.py`; the retrieval prefilter is external, so its result list is the
`candidates` parameter. -/
def rank_bosch_use_cases_matrix (req : AgentRequest)
    (candidates : List UCCandidate) (top_k : ℕ) : List RankedUseCase :=
  if candidates.isEmpty then []
  else
    let sorted := rankedUseCases req candidates
    let best := guardedBest sorted
    (sorted.take top_k).map fun ut =>
      let mp := pyClamp 0 100 (pyRound (ut.2 / best * 100))
      { title := ut.1.title
        summary := ut.1.summary
        score_total := ut.2
        match_percent := mp
        score := (mp : ℚ) / 100 }

/-- The `/use-cases` endpoint's response fields. -/
structure UseCasesResponse where
  use_cases : List RankedUseCase
  suggest_show_frameworks : Bool
  best_score : Option ℚ

/-- The `/use-cases` endpoint body (`use_cases` in `api.py`): rank the
retrieved candidates with `top_k = 3` and suggest frameworks unless the
best score is at least `0.35`. -/
def use_cases (req : AgentRequest) (candidates : List UCCandidate) :
    UseCasesResponse :=
  let ranked := rank_bosch_use_cases_matrix req candidates 3
  let best_score : Option ℚ := match ranked with
    | [] => none
    | r :: _ => some r.score
  let suggest := match best_score with
    | none => true
    | some b => if 0.35 ≤ b then false else true
  { use_cases := ranked, suggest_show_frameworks := suggest, best_score := best_score }

/-!
## `backend/app_agents/scoring_agent.py`
-/

/-- The payload dict read by `run_scoring`; each key may be absent. -/
structure ScoringPayload where
  agent_type : Option String
  priorities : Option (List String)
  use_case_text : Option String
  experience_level : Option String

/-- Python `x or default` for an optional string: `None` and `""` are falsy. -/
def orDefaultStr (x : Option String) (dflt : String) : String :=
  match x with
  | none => dflt
  | some s => if s = "" then dflt else s

/-- Python `x or []` for an optional list. -/
def orDefaultList (x : Option (List String)) : List String :=
  match x with
  | none => []
  | some l => l

/-- One `framework_recommendations` row built by `run_scoring`. -/
structure ScoringRec where
  framework : String
  score : ℚ
  match_percent : ℤ
deriving DecidableEq

/-- The result of `run_scoring`. -/
structure ScoringResult where
  framework_candidates : List ScoredFramework
  framework_recommendations : List ScoringRec
deriving DecidableEq

/-- `run_scoring(payload)` of `scoring_agent.py`: rank with
`score_frameworks` and emit the top 3 with `match_percent =
int(round(score * 100))`. -/
def run_scoring (payload : ScoringPayload) : ScoringResult :=
  let agent_type := orDefaultStr payload.agent_type "unknown"
  let priorities := orDefaultList payload.priorities
  let use_case_text := orDefaultStr payload.use_case_text ""
  let skill_level := payload.experience_level
  let ranked := score_frameworks agent_type priorities use_case_text skill_level
  let recs := (ranked.take 3).map fun fw =>
    { framework := fw.framework
      score := fw.score
      match_percent := pyRound (fw.score * 100) : ScoringRec }
  { framework_candidates := ranked, framework_recommendations := recs }

/-!
## The `/agent` endpoint (`run_agent` in `api.py`)

The endpoint mixes the deterministic ranking with synchronous calls to
external collaborators (the LLM agent runtime and the vector store); each
such call either yields a value or raises.  The environment below carries
one `Except String _` per call site, in program order; the handler body is
the `Except`-monadic sequence of the source, and the endpoint wraps it in
the `try`/`except` of `run_agent`.  The LLM prose fields that are merged
into the success payload are irrelevant to the error-handling claim and
are carried as opaque parsed-JSON summaries.
-/

/-- What `_extract_json` recovers from an LLM response: for the final
payload only the three shaped fields and an optional error matter; a key
the model did not emit is `none`. -/
structure PartialFinal where
  mode : Option String
  agent_recommendations : Option (List RankedUseCase)
  framework_recommendations : Option (List RankedFramework)
  error : Option String

/-- The JSON object `/agent` answers with (after `_ensure_final_shape`). -/
structure FinalObj where
  mode : String
  agent_recommendations : List RankedUseCase
  framework_recommendations : List RankedFramework
  error : Option String

/-- `_ensure_final_shape(obj)`: force `mode` into
`{"agents", "frameworks"}` and default the two lists. -/
def ensure_final_shape (obj : PartialFinal) : FinalObj :=
  let mode := match obj.mode with
    | some m => if m = "agents" ∨ m = "frameworks" then m else "frameworks"
    | none => "frameworks"
  { mode := mode
    agent_recommendations := obj.agent_recommendations.getD []
    framework_recommendations := obj.framework_recommendations.getD []
    error := obj.error }

/-- The external-call results available to one `/agent` request, in the
order the handler makes the calls.  `factsheets` and `snippets` model
store calls whose Python wrappers catch their own exceptions and return
an empty result, so they carry an `Except` that the body absorbs. -/
structure AgentEnv where
  requirements : Except String String
  profiler : Except String String
  usecase_retrieval : Except String (List UCCandidate)
  factsheets : Except String (List Factsheet)
  snippets : String → Except String (List String)
  decision : Except String PartialFinal
  control : Except String PartialFinal
  advisor : Except String PartialFinal

/-- The `try` body of `run_agent`: every step in source order; a failing
external call aborts the body with its exception.  The store wrappers
`_load_framework_factsheets_from_chroma` and
`_get_framework_snippets_for_framework` catch internally and degrade to
`[]`. -/
def agentBody (req : AgentRequest) (env : AgentEnv) : Except String FinalObj := do
  let _requirements ← env.requirements
  let _profiler ← env.profiler
  let candidates ← env.usecase_retrieval
  let ranked_use_cases := rank_bosch_use_cases_matrix req candidates 3
  let best_uc_score : Option ℚ := match ranked_use_cases with
    | [] => none
    | r :: _ => some r.score
  let suggest_show_frameworks := match best_uc_score with
    | none => true
    | some b => if 0.35 ≤ b then false else true
  let want_frameworks := req.force_frameworks || suggest_show_frameworks
  let facts := match env.factsheets with
    | .ok l => l
    | .error _ => []
  let ranked_fw := rank_all_frameworks req facts
  let top3_fw := ranked_fw.take 3
  let final_obj ←
    if want_frameworks then do
      let _snips := top3_fw.map fun fw =>
        match env.snippets fw.framework with
        | .ok l => l
        | .error _ => []
      let _decision_texts ← env.decision
      pure { mode := "frameworks"
             agent_recommendations := []
             framework_recommendations := top3_fw
             error := none : FinalObj }
    else
      pure { mode := "agents"
             agent_recommendations := ranked_use_cases.take 3
             framework_recommendations := []
             error := none : FinalObj }
  let _ := final_obj
  let controlled ← env.control
  let _shaped := ensure_final_shape controlled
  let advised ← env.advisor
  pure (ensure_final_shape advised)

/-- `run_agent`: the `except Exception` wrapper converts any raised
exception into the best-effort default payload. -/
def run_agent (req : AgentRequest) (env : AgentEnv) : FinalObj :=
  match agentBody req env with
  | .ok out => out
  | .error e =>
    ensure_final_shape
      { mode := some "frameworks"
        agent_recommendations := some []
        framework_recommendations := some []
        error := some e }

/-!
## The iterative refinement loop (spec §4.4)

No file under `src/` contains this loop; it is described only by the
spec.  The definitions below are therefore modelled from the spec's words.
-/

/-- Modelled from the spec: the widening sequence `{3, 6}` of requested
snippet counts, one entry per attempt, each capped at 8.  (`refine` itself
is missing from the files under `src/`.) -/
def widenSeq (attempt : ℕ) : ℕ :=
  min (if attempt = 0 then 3 else 6) 8

/-- Modelled from the spec: the result of the refinement loop
`refine(request) -> (top3_scored, full_ranked, context)`; the context
records the attempts used, the snippet counts requested, and the snippets
of the final attempt.  (`refine` itself is missing from the files under
`src/`.) -/
structure RefineResult where
  top3_scored : List ScoredFramework
  full_ranked : List ScoredFramework
  attempts : ℕ
  requested_counts : List ℕ
  snippets : List (String × List String)

/-- Modelled from the spec: best match percent of a scored candidate list,
`round(score * 100)` of its best-scored entry (the list from §4.2 is
sorted descending), `0` when empty. -/
def bestMatchPercent (ranked : List ScoredFramework) : ℤ :=
  match ranked with
  | [] => 0
  | r :: _ => pyRound (r.score * 100)

/-- Modelled from the spec: one refinement attempt fetches snippets for
every candidate name at the attempt's widened count. -/
def refineAttempt (ranked : List ScoredFramework)
    (fetch : String → ℕ → List String) (attempt : ℕ) :
    List (String × List String) :=
  ranked.map fun c => (c.framework, fetch c.framework (widenSeq attempt))

/-- Modelled from the spec: the early-stop test — best match percent at
least 60 and at least one candidate with non-empty supporting text. -/
def refineSufficient (ranked : List ScoredFramework)
    (snips : List (String × List String)) : Bool :=
  (60 ≤ bestMatchPercent ranked) && snips.any fun s => !s.2.isEmpty

/-- Modelled from the spec: the bounded two-attempt refinement loop over
an already scored candidate list (obtained via §4.2); whatever the final
attempt computed is returned, with no rollback. -/
def refine (ranked : List ScoredFramework)
    (fetch : String → ℕ → List String) : RefineResult :=
  if refineSufficient ranked (refineAttempt ranked fetch 0) then
    { top3_scored := ranked.take 3
      full_ranked := ranked
      attempts := 1
      requested_counts := [widenSeq 0]
      snippets := refineAttempt ranked fetch 0 }
  else
    { top3_scored := ranked.take 3
      full_ranked := ranked
      attempts := 2
      requested_counts := [widenSeq 0, widenSeq 1]
      snippets := refineAttempt ranked fetch 1 }

/-!
## Auxiliary predicates and concrete sample inputs
-/

/-- All weights of a weight vector are non-negative. -/
def WNonneg (w : WeightVec) : Prop := ∀ kv ∈ w, (0 : ℚ) ≤ kv.2

/-- A request with unrecognized agent type and no signals. -/
def reqUnknown : AgentRequest := ⟨"unknown", [], "", none, none, false⟩

/-- A factsheet whose store metadata carried `0` for every dimension
(`int(meta.get(d, 3))` does not clamp). -/
def zeroFactsheet : Factsheet := ⟨"X", fun _ => 0, none⟩

/-- A factsheet with the metadata default `3` on every dimension. -/
def defaultFactsheet : Factsheet := ⟨"X", fun _ => 3, none⟩

/-- A retrieved use-case candidate with no usable text or metadata. -/
def ucCandidate0 : UCCandidate := ⟨"UC", "", ⟨none, none, none, none⟩⟩

/-- An LLM response from which `_extract_json` recovered nothing. -/
def emptyPartialFinal : PartialFinal := ⟨none, none, none, none⟩

/-- An environment whose very first external call (the requirements
agent) raises. -/
def envBoom : AgentEnv :=
  { requirements := .error "boom"
    profiler := .ok ""
    usecase_retrieval := .ok []
    factsheets := .ok []
    snippets := fun _ => .ok []
    decision := .ok emptyPartialFinal
    control := .ok emptyPartialFinal
    advisor := .ok emptyPartialFinal }

/-!
## Claims about the signal deriver (`derive_flags`)
-/

/-- C5: `rag_required` is true iff `"rag"` is a priority or the lowercased
use-case text contains one of the fixed document/knowledge/search keywords
(`ragKeywords`); in particular, with priorities `["rag"]`, agent type
`"Daten-Agent"` (bucket `data_document`) and a use-case text containing
`"document search"`, `rag_required` is true. -/
theorem derive_flags_rag_required_spec :
    (∀ (t : String) (p : List String) (b : String),
      (derive_flags t p b).rag_required
        = (p.contains "rag" || ragKeywords.any fun k => strHasSub (strLower t) k)) ∧
    (∀ t : String, strHasSub t "document search" = true →
      (derive_flags t ["rag"] (map_agent_type_to_bucket "Daten-Agent")).rag_required
        = true) := by
  refine ⟨fun t p b => rfl, fun t _ => ?_⟩
  simp [derive_flags]

/-- C6 counterexample: with empty text and empty priorities but the
`multi_agent` agent-type bucket, `derive_flags` returns `multi_agent =
true`, so the flags are not all false for every bucket. -/
theorem derive_flags_empty_not_all_false :
    derive_flags "" [] "multi_agent"
      = { rag_required := false, automation_high := false, multi_agent := true }
      ∧ ({ rag_required := false, automation_high := false, multi_agent := true : Flags}
          = { rag_required := false, automation_high := false, multi_agent := false : Flags}
            → False) := by
  constructor
  · decide
  · intro h
    cases h

/-- C6 (amended): with empty use-case text and empty priorities,
`derive_flags` returns all-false flags for every agent-type bucket other
than `multi_agent` (for the `multi_agent` bucket the `multi_agent` flag is
true by the bucket test). -/
theorem derive_flags_empty_all_false (b : String) (hb : b ≠ "multi_agent") :
    derive_flags "" [] b
      = { rag_required := false, automation_high := false, multi_agent := false } := by
  have hb' : (b == "multi_agent") = false := beq_eq_false_iff_ne.mpr hb
  unfold derive_flags
  simp only [hb']
  decide

/-- C6 witness: the amended claim at the `chat_support` bucket. -/
theorem derive_flags_empty_all_false_witness :
    derive_flags "" [] "chat_support"
      = { rag_required := false, automation_high := false, multi_agent := false } :=
  derive_flags_empty_all_false "chat_support" (by decide)

/-!
## Claim about the `/agent` error path (`run_agent`)
-/

/-- C8: when any step of the `/agent` handler body raises (any external
document-store or LLM call fails), the endpoint does not propagate the
exception: it answers with the best-effort default payload — mode
`"frameworks"`, both recommendation lists empty, and the exception text in
the `error` field. -/
theorem run_agent_error_payload (req : AgentRequest) (env : AgentEnv) (e : String)
    (h : agentBody req env = .error e) :
    run_agent req env
      = { mode := "frameworks"
          agent_recommendations := []
          framework_recommendations := []
          error := some e } := by
  unfold run_agent
  rw [h]
  simp [ensure_final_shape]

/-- C8 witness: a request whose first external call raises `"boom"`. -/
theorem run_agent_error_payload_witness :
    run_agent reqUnknown envBoom
      = { mode := "frameworks"
          agent_recommendations := []
          framework_recommendations := []
          error := some "boom" } :=
  run_agent_error_payload reqUnknown envBoom "boom" rfl

/-!
## Claim about the iterative refinement loop (spec §4.4, modelled from the
spec: the loop's code is not among the files under `src/`)
-/

/-- C9: the refinement loop makes at most 2 attempts; the snippet counts it
requests follow the widening sequence `{3, 6}` capped at 8; it stops early
after the first attempt exactly when the best match percent is at least 60
and some candidate has non-empty supporting text; and on an empty candidate
list it terminates within 2 attempts with empty `top3_scored` and
`full_ranked`. -/
theorem refine_bounded_spec :
    (∀ (ranked : List ScoredFramework) (fetch : String → ℕ → List String),
      (refine ranked fetch).attempts ≤ 2) ∧
    (widenSeq 0 = 3 ∧ widenSeq 1 = 6 ∧ ∀ i, widenSeq i ≤ 8) ∧
    (∀ (ranked : List ScoredFramework) (fetch : String → ℕ → List String),
      (refine ranked fetch).requested_counts
        = if refineSufficient ranked (refineAttempt ranked fetch 0) then [3] else [3, 6]) ∧
    (∀ (ranked : List ScoredFramework) (fetch : String → ℕ → List String),
      (refine ranked fetch).attempts = 1
        ↔ refineSufficient ranked (refineAttempt ranked fetch 0) = true) ∧
    (∀ fetch : String → ℕ → List String,
      (refine [] fetch).top3_scored = [] ∧ (refine [] fetch).full_ranked = []
        ∧ (refine [] fetch).attempts ≤ 2) := by
  refine ⟨fun ranked fetch => ?_, ⟨rfl, rfl, fun i => ?_⟩,
    fun ranked fetch => ?_, fun ranked fetch => ?_, fun fetch => ?_⟩
  · unfold refine
    split <;> simp
  · unfold widenSeq
    split <;> omega
  · unfold refine
    split <;> simp_all [widenSeq]
  · unfold refine
    split <;> simp_all
  · refine ⟨?_, ?_, ?_⟩ <;> rfl

/-!
## Arithmetic helper lemmas
-/

theorem pyRound_nonneg {q : ℚ} (h : 0 ≤ q) : 0 ≤ pyRound q := by
  have hf : (0 : ℤ) ≤ ⌊q⌋ := Int.floor_nonneg.mpr h
  unfold pyRound
  split
  · exact hf
  · split
    · omega
    · split <;> omega

theorem pyRound_le {q : ℚ} {n : ℤ} (h : q ≤ (n : ℚ)) : pyRound q ≤ n := by
  have hf : ⌊q⌋ ≤ n := by
    have h2 := Int.floor_le_floor h
    simpa using h2
  have hlt : ¬ (q - ⌊q⌋ < 1 / 2) → ⌊q⌋ < n := by
    intro h1
    push_neg at h1
    have h2 : (⌊q⌋ : ℚ) < q := by linarith
    have h3 : (⌊q⌋ : ℚ) < (n : ℚ) := lt_of_lt_of_le h2 h
    exact_mod_cast h3
  unfold pyRound
  split
  · exact hf
  next h1 =>
    split
    · have := hlt h1
      omega
    · split
      · exact hf
      · have := hlt h1
        omega

theorem pyRound_intCast (n : ℤ) : pyRound (n : ℚ) = n := by
  unfold pyRound
  rw [Int.floor_intCast]
  norm_num

theorem qclamp_nonneg (x : ℚ) : 0 ≤ qclamp x := le_max_left 0 _

theorem qclamp_le_one (x : ℚ) : qclamp x ≤ 1 :=
  max_le (by norm_num) (min_le_left _ _)

theorem qclamp_eq_self {x : ℚ} (h0 : 0 ≤ x) (h1 : x ≤ 1) : qclamp x = x := by
  unfold qclamp
  rw [min_eq_right h1, max_eq_right h0]

theorem pyClamp_nonneg (x : ℤ) : 0 ≤ pyClamp 0 100 x := le_max_left 0 _

theorem pyClamp_le (x : ℤ) : pyClamp 0 100 x ≤ 100 :=
  max_le (by norm_num) (min_le_left _ _)

theorem pyClamp_eq_self {x : ℤ} (h0 : 0 ≤ x) (h1 : x ≤ 100) : pyClamp 0 100 x = x := by
  unfold pyClamp
  omega

theorem le_foldl_max (xs : List ℚ) (a : ℚ) : a ≤ xs.foldl max a := by
  induction xs generalizing a with
  | nil => exact le_refl a
  | cons x xs ih =>
    exact le_trans (le_max_left a x) (ih (max a x))

theorem mem_le_foldl_max {y : ℚ} {xs : List ℚ} (a : ℚ) (h : y ∈ xs) :
    y ≤ xs.foldl max a := by
  induction xs generalizing a with
  | nil => cases h
  | cons x xs ih =>
    rcases List.mem_cons.mp h with rfl | hy
    · exact le_trans (le_max_right a y) (le_foldl_max xs _)
    · exact ih _ hy

theorem foldl_max_mem (xs : List ℚ) (a : ℚ) : xs.foldl max a = a ∨ xs.foldl max a ∈ xs := by
  induction xs generalizing a with
  | nil => exact Or.inl rfl
  | cons x xs ih =>
    rcases ih (max a x) with h | h
    · rcases le_total x a with hxa | hax
      · exact Or.inl (by rw [List.foldl_cons, h, max_eq_left hxa])
      · exact Or.inr (by rw [List.foldl_cons, h, max_eq_right hax]; exact List.mem_cons_self _ _)
    · exact Or.inr (List.mem_cons_of_mem _ h)

theorem le_pyListMax {y : ℚ} {l : List ℚ} (h : y ∈ l) : y ≤ pyListMax l := by
  cases l with
  | nil => cases h
  | cons x xs =>
    rcases List.mem_cons.mp h with rfl | hy
    · exact le_foldl_max xs y
    · exact mem_le_foldl_max x hy

theorem pyListMax_mem {l : List ℚ} (h : l ≠ []) : pyListMax l ∈ l := by
  cases l with
  | nil => exact absurd rfl h
  | cons x xs =>
    rcases foldl_max_mem xs x with h2 | h2
    · simp only [pyListMax]
      rw [h2]
      exact List.mem_cons_self x xs
    · simp only [pyListMax]
      exact List.mem_cons_of_mem _ h2

/-!
## Helper lemmas about `score_frameworks`
-/

theorem mem_ite_singleton {α : Type} {c : Prop} [Decidable c] {v w : α}
    (h : w ∈ if c then [v] else []) : w = v := by
  split at h
  · simpa using h
  · cases h

theorem agentTypeWeights_nonneg (b : String) : WNonneg (agentTypeWeights b) := by
  unfold agentTypeWeights
  split <;>
    norm_num [WNonneg, wAgentChatSupport, wAgentDataDocument, wAgentWorkflow,
      wAgentResearch, wAgentMultiAgent, List.forall_mem_cons]

theorem skillWeights_nonneg {s : Option String} {w : WeightVec}
    (h : w ∈ skillWeights s) : WNonneg w := by
  unfold skillWeights at h
  split at h
  · rw [List.mem_singleton.mp h]
    norm_num [WNonneg, wSkillBeginner, List.forall_mem_cons]
  · rw [List.mem_singleton.mp h]
    norm_num [WNonneg, wSkillExpert, List.forall_mem_cons]
  · cases h

theorem prioWeights_nonneg {p : String} {w : WeightVec}
    (h : prioWeights? p = some w) : WNonneg w := by
  unfold prioWeights? at h
  split at h <;>
    first
    | exact Option.noConfusion h
    | (injection h with h2
       subst h2
       norm_num [WNonneg, wPrioIntegration, wPrioRag, wPrioMultiAgent,
         wPrioDatenschutz, wPrioSpeed, wPrioMemory, List.forall_mem_cons])

theorem activeWeights_nonneg (a : String) (p : List String) (t : String)
    (s : Option String) : ∀ w ∈ activeWeights a p t s, WNonneg w := by
  intro w hw
  simp only [activeWeights, List.mem_append, List.mem_singleton] at hw
  rcases hw with ((((hw | hw) | hw) | hw) | hw) | hw
  · rw [hw]
    exact agentTypeWeights_nonneg _
  · rw [mem_ite_singleton hw]
    norm_num [WNonneg, wDerivedRag, List.forall_mem_cons]
  · rw [mem_ite_singleton hw]
    norm_num [WNonneg, wDerivedAutomation, List.forall_mem_cons]
  · rw [mem_ite_singleton hw]
    norm_num [WNonneg, wDerivedMulti, List.forall_mem_cons]
  · exact skillWeights_nonneg hw
  · obtain ⟨q, _, hq⟩ := List.mem_filterMap.mp hw
    exact prioWeights_nonneg hq

theorem dot_nonneg {cap : Cap} {w : WeightVec} (hcap : ∀ k, 0 ≤ cap k)
    (hw : WNonneg w) : 0 ≤ dot cap w := by
  apply List.sum_nonneg
  intro x hx
  obtain ⟨kv, hkv, rfl⟩ := List.mem_map.mp hx
  exact mul_nonneg (hcap kv.1) (hw kv hkv)

theorem rawTotal_ge_baseline {cap : Cap} (hcap : ∀ k, 0 ≤ cap k)
    (active : List WeightVec) (hact : ∀ w ∈ active, WNonneg w) :
    1 / 20 ≤ rawTotal active cap := by
  unfold rawTotal
  have h1 : 0 ≤ (active.map fun w => dot cap w).sum := by
    apply List.sum_nonneg
    intro x hx
    obtain ⟨w, hw, rfl⟩ := List.mem_map.mp hx
    exact dot_nonneg hcap (hact w hw)
  have h2 : (0.05 : ℚ) = 1 / 20 := by norm_num
  linarith

theorem rawScores_mem {a t : String} {p : List String} {s : Option String}
    {nv : String × ℚ} (h : nv ∈ rawScores a p t s) :
    ∃ fw cap, CAP fw = some cap ∧ (∀ k, 0 ≤ cap k)
      ∧ nv = (fw, rawTotal (activeWeights a p t s) cap) := by
  obtain ⟨fw, hfw, hmap⟩ := List.mem_filterMap.mp h
  obtain ⟨cap, hcap, heq⟩ := Option.map_eq_some'.mp hmap
  refine ⟨fw, cap, hcap, ?_, heq.symm⟩
  have : fw = "Claude Agent SDK" ∨ fw = "Cognigy" ∨ fw = "CrewAI" ∨ fw = "Google ADK"
      ∨ fw = "LangChain" ∨ fw = "LangGraph" ∨ fw = "OpenAI Agents SDK" ∨ fw = "n8n" := by
    simpa [FRAMEWORKS] using hfw
  rcases this with rfl | rfl | rfl | rfl | rfl | rfl | rfl | rfl <;>
    (simp only [CAP] at hcap
     injection hcap with h2
     subst h2
     intro k
     cases k <;>
       norm_num [langChainCap, langGraphCap, googleAdkCap, n8nCap, crewAiCap,
         openAiSdkCap, claudeSdkCap, cognigyCap])

theorem rawScores_snd_ge {a t : String} {p : List String} {s : Option String}
    {nv : String × ℚ} (h : nv ∈ rawScores a p t s) : 1 / 20 ≤ nv.2 := by
  obtain ⟨fw, cap, _, hcap, rfl⟩ := rawScores_mem h
  exact rawTotal_ge_baseline hcap _ (activeWeights_nonneg a p t s)

theorem rawScores_ne_nil (a : String) (p : List String) (t : String)
    (s : Option String) : rawScores a p t s ≠ [] := by
  unfold rawScores FRAMEWORKS
  intro h
  simp [CAP, List.filterMap] at h

theorem le_scoreDivisor {a t : String} {p : List String} {s : Option String}
    {nv : String × ℚ} (h : nv ∈ rawScores a p t s) :
    nv.2 ≤ scoreDivisor a p t s :=
  le_pyListMax (List.mem_map_of_mem Prod.snd h)

theorem scoreDivisor_mem (a : String) (p : List String) (t : String)
    (s : Option String) :
    scoreDivisor a p t s ∈ (rawScores a p t s).map Prod.snd := by
  apply pyListMax_mem
  simp [rawScores_ne_nil a p t s]

theorem scoreDivisor_ge (a : String) (p : List String) (t : String)
    (s : Option String) : 1 / 20 ≤ scoreDivisor a p t s := by
  obtain ⟨nv, hnv, heq⟩ := List.mem_map.mp (scoreDivisor_mem a p t s)
  rw [← heq]
  exact rawScores_snd_ge hnv

theorem scoreDivisor_pos (a : String) (p : List String) (t : String)
    (s : Option String) : 0 < scoreDivisor a p t s :=
  lt_of_lt_of_le (by norm_num) (scoreDivisor_ge a p t s)

theorem score_frameworks_def (a : String) (p : List String) (t : String)
    (s : Option String) :
    score_frameworks a p t s
      = List.insertionSort scoreDesc
          ((rawScores a p t s).map fun nv =>
            { framework := nv.1, score := qclamp (nv.2 / scoreDivisor a p t s) }) := rfl

theorem mem_score_frameworks {a t : String} {p : List String} {s : Option String}
    {r : ScoredFramework} :
    r ∈ score_frameworks a p t s
      ↔ ∃ nv ∈ rawScores a p t s,
          r = { framework := nv.1, score := qclamp (nv.2 / scoreDivisor a p t s) } := by
  rw [score_frameworks_def, List.mem_insertionSort, List.mem_map]
  constructor
  · rintro ⟨nv, hnv, rfl⟩
    exact ⟨nv, hnv, rfl⟩
  · rintro ⟨nv, hnv, rfl⟩
    exact ⟨nv, hnv, rfl⟩

theorem score_frameworks_sorted (a : String) (p : List String) (t : String)
    (s : Option String) : (score_frameworks a p t s).Pairwise scoreDesc := by
  rw [score_frameworks_def]
  exact List.sorted_insertionSort scoreDesc _

theorem score_frameworks_score_bounds {a t : String} {p : List String}
    {s : Option String} {r : ScoredFramework} (h : r ∈ score_frameworks a p t s) :
    0 ≤ r.score ∧ r.score ≤ 1 := by
  obtain ⟨nv, _, rfl⟩ := mem_score_frameworks.mp h
  exact ⟨qclamp_nonneg _, qclamp_le_one _⟩

theorem score_frameworks_ne_nil (a : String) (p : List String) (t : String)
    (s : Option String) : score_frameworks a p t s ≠ [] := by
  intro h
  have h2 : (score_frameworks a p t s).length = 0 := by rw [h]; rfl
  rw [score_frameworks_def, List.length_insertionSort, List.length_map] at h2
  exact rawScores_ne_nil a p t s (List.length_eq_zero.mp h2)

theorem score_frameworks_score_eq {a t : String} {p : List String}
    {s : Option String} {nv : String × ℚ} (h : nv ∈ rawScores a p t s) :
    qclamp (nv.2 / scoreDivisor a p t s) = nv.2 / scoreDivisor a p t s := by
  have hpos := scoreDivisor_pos a p t s
  have h0 : 0 ≤ nv.2 / scoreDivisor a p t s :=
    div_nonneg (le_trans (by norm_num) (rawScores_snd_ge h)) (le_of_lt hpos)
  have h1 : nv.2 / scoreDivisor a p t s ≤ 1 :=
    (div_le_one hpos).mpr (le_scoreDivisor h)
  exact qclamp_eq_self h0 h1

theorem guardedBest_pos {α : Type} (sorted : List (α × ℚ)) : 0 < guardedBest sorted := by
  unfold guardedBest
  split
  · norm_num
  next h => exact lt_of_not_le h

theorem sorted_le_batchBest {α : Type} {l : List (α × ℚ)} (h : l.Pairwise totalDesc) :
    ∀ x ∈ l, x.2 ≤ batchBest l := by
  cases l with
  | nil =>
    intro x hx
    cases hx
  | cons a t =>
    intro x hx
    rcases List.mem_cons.mp hx with rfl | hx
    · exact le_refl _
    · exact (List.pairwise_cons.mp h).1 x hx

theorem rankedFacts_sorted (req : AgentRequest) (facts : List Factsheet) :
    (rankedFacts req facts).Pairwise totalDesc :=
  List.sorted_insertionSort totalDesc _

theorem rankedUseCases_sorted (req : AgentRequest) (cands : List UCCandidate) :
    (rankedUseCases req cands).Pairwise totalDesc :=
  List.sorted_insertionSort totalDesc _

theorem score_frameworks_head_max {a t : String} {p : List String} {s : Option String}
    {r : ScoredFramework} {rest : List ScoredFramework}
    (heq : score_frameworks a p t s = r :: rest) :
    ∀ x ∈ score_frameworks a p t s, x.score ≤ r.score := by
  intro x hx
  rw [heq] at hx
  rcases List.mem_cons.mp hx with rfl | hx
  · exact le_refl _
  · have hpw := score_frameworks_sorted a p t s
    rw [heq] at hpw
    exact (List.pairwise_cons.mp hpw).1 x hx

theorem score_frameworks_names_perm (a : String) (p : List String) (t : String)
    (s : Option String) :
    ((score_frameworks a p t s).map ScoredFramework.framework).Perm FRAMEWORKS := by
  rw [score_frameworks_def]
  refine ((List.perm_insertionSort scoreDesc _).map ScoredFramework.framework).trans ?_
  rw [List.map_map]
  have h2 : (rawScores a p t s).map
      (ScoredFramework.framework ∘ fun nv =>
        { framework := nv.1, score := qclamp (nv.2 / scoreDivisor a p t s) })
      = (rawScores a p t s).map Prod.fst := rfl
  rw [h2]
  have h3 : (rawScores a p t s).map Prod.fst = FRAMEWORKS := rfl
  rw [h3]

/-- C1: for every input (the set of known frameworks — those with a
capability vector in `CAP` — is fixed and non-empty, so every call
satisfies the claim's precondition), `score_frameworks` returns scores all
in `[0, 1]`, sorted non-increasingly, and its top entry is a framework
whose raw weighted-capability sum (dot products of the active weight
vectors plus the `0.05` baseline, as recorded in `rawScores`) is maximal. -/
theorem score_frameworks_ranking_spec (a : String) (p : List String) (t : String)
    (s : Option String) :
    (∀ r ∈ score_frameworks a p t s, 0 ≤ r.score ∧ r.score ≤ 1) ∧
    (score_frameworks a p t s).Pairwise (fun x y => y.score ≤ x.score) ∧
    (∃ r rest v, score_frameworks a p t s = r :: rest
      ∧ (r.framework, v) ∈ rawScores a p t s
      ∧ ∀ nv ∈ rawScores a p t s, nv.2 ≤ v) := by
  refine ⟨fun r hr => score_frameworks_score_bounds hr, score_frameworks_sorted a p t s, ?_⟩
  obtain ⟨r, rest, heq⟩ : ∃ r rest, score_frameworks a p t s = r :: rest := by
    cases hsf : score_frameworks a p t s with
    | nil => exact absurd hsf (score_frameworks_ne_nil a p t s)
    | cons r rest => exact ⟨r, rest, rfl⟩
  have hrmem : r ∈ score_frameworks a p t s := by
    rw [heq]
    exact List.mem_cons_self _ _
  obtain ⟨nv, hnv, hreq⟩ := mem_score_frameworks.mp hrmem
  subst hreq
  refine ⟨_, rest, nv.2, heq, hnv, ?_⟩
  intro mv hmv
  have hmx := scoreDivisor_pos a p t s
  have hmem2 : ({ framework := mv.1, score := qclamp (mv.2 / scoreDivisor a p t s) }
      : ScoredFramework) ∈ score_frameworks a p t s :=
    mem_score_frameworks.mpr ⟨mv, hmv, rfl⟩
  have h1 := score_frameworks_head_max heq _ hmem2
  simp only at h1
  rw [score_frameworks_score_eq hmv, score_frameworks_score_eq hnv] at h1
  exact (div_le_div_iff_of_pos_right hmx).mp h1

/-- C4: in every normalization step the divisor is the maximum raw score
of the current batch and is never zero.  In `score_frameworks` the batch is
never empty, its divisor is the attained maximum of the raw scores, and it
is at least the `0.05` baseline, so the zero-divisor branch is unreachable;
in the dimension rankers the guarded divisor `guardedBest` is positive,
equals the sorted batch's best total whenever that is positive, is the
substituted `1.0` when the guard fires, and the best total bounds the
whole batch. -/
theorem normalization_divisor_spec :
    (∀ (a : String) (p : List String) (t : String) (s : Option String),
      rawScores a p t s ≠ []
        ∧ scoreDivisor a p t s ∈ (rawScores a p t s).map Prod.snd
        ∧ (∀ nv ∈ rawScores a p t s, nv.2 ≤ scoreDivisor a p t s)
        ∧ 1 / 20 ≤ scoreDivisor a p t s
        ∧ 0 < scoreDivisor a p t s) ∧
    (∀ sorted : List (Factsheet × ℚ), 0 < guardedBest sorted
        ∧ (0 < batchBest sorted → guardedBest sorted = batchBest sorted)
        ∧ (batchBest sorted ≤ 0 → guardedBest sorted = 1)) ∧
    (∀ (req : AgentRequest) (facts : List Factsheet),
      ∀ x ∈ rankedFacts req facts, x.2 ≤ batchBest (rankedFacts req facts)) ∧
    (∀ (req : AgentRequest) (cands : List UCCandidate),
      ∀ x ∈ rankedUseCases req cands, x.2 ≤ batchBest (rankedUseCases req cands)) := by
  refine ⟨fun a p t s => ⟨rawScores_ne_nil a p t s, scoreDivisor_mem a p t s,
      fun nv hnv => le_scoreDivisor hnv, scoreDivisor_ge a p t s,
      scoreDivisor_pos a p t s⟩,
    fun sorted => ⟨guardedBest_pos sorted, fun h => ?_, fun h => ?_⟩,
    fun req facts => sorted_le_batchBest (rankedFacts_sorted req facts),
    fun req cands => sorted_le_batchBest (rankedUseCases_sorted req cands)⟩
  · unfold guardedBest
    rw [if_neg (not_le.mpr h)]
  · unfold guardedBest
    rw [if_pos h]

/-- C7: `score_frameworks` is total (it is a function in this embedding);
an unrecognized agent type falls back to the `chat_support` bucket;
priorities outside the six known keys activate no weight vector (the
result equals the no-priorities result); and the neutral call with
`priorities = []`, `agent_type = "unknown"`, empty text and no skill level
returns exactly the frameworks having a capability vector (one entry per
element of `FRAMEWORKS`, up to ranking order), each with score `≥ 0`. -/
theorem score_frameworks_degrade_spec :
    map_agent_type_to_bucket "unknown" = "chat_support" ∧
    (∀ (a t : String) (p : List String) (s : Option String),
      (∀ x ∈ p, prioWeights? x = none) →
        score_frameworks a p t s = score_frameworks a [] t s) ∧
    ((score_frameworks "unknown" [] "" none).map ScoredFramework.framework).Perm
      FRAMEWORKS ∧
    (∀ r ∈ score_frameworks "unknown" [] "" none, 0 ≤ r.score) := by
  refine ⟨rfl, ?_, score_frameworks_names_perm "unknown" [] "" none,
    fun r hr => (score_frameworks_score_bounds hr).1⟩
  intro a t p s hp
  have hcon : ∀ key : String, prioWeights? key ≠ none → p.contains key = false := by
    intro key hkey
    cases hc : p.contains key with
    | false => rfl
    | true =>
      have hmem : key ∈ p := List.mem_of_elem_eq_true hc
      exact absurd (hp key hmem) hkey
  have hrag : p.contains "rag" = false := by
    apply hcon
    simp [prioWeights?]
  have htools : p.contains "tools" = false := by
    apply hcon
    simp [prioWeights?]
  have hmulti : p.contains "multi" = false := by
    apply hcon
    simp [prioWeights?]
  have hfilter : p.dedup.filterMap prioWeights? = [] :=
    List.filterMap_eq_nil_iff.mpr fun x hx => hp x (List.mem_dedup.mp hx)
  have hflags : ∀ b : String, derive_flags t p b = derive_flags t [] b := by
    intro b
    unfold derive_flags
    rw [hrag, htools, hmulti]
    rfl
  have hactive : activeWeights a p t s = activeWeights a [] t s := by
    unfold activeWeights
    simp only [hflags, hfilter, List.dedup_nil, List.filterMap_nil]
  have hraw : rawScores a p t s = rawScores a [] t s := by
    unfold rawScores
    rw [hactive]
  have hdiv : scoreDivisor a p t s = scoreDivisor a [] t s := by
    unfold scoreDivisor
    rw [hraw]
  rw [score_frameworks_def, score_frameworks_def, hraw, hdiv]

/-- C7 witness: the degradation equality at a concrete unknown priority. -/
theorem score_frameworks_degrade_spec_witness :
    score_frameworks "unknown" ["unheard-of"] "" none
      = score_frameworks "unknown" [] "" none :=
  (score_frameworks_degrade_spec.2.1 "unknown" "" ["unheard-of"] none
    (by intro x hx; simp at hx; subst hx; rfl))

/-!
## Helper lemmas about the dimension scorer
-/

theorem priorityWeights_pos {p : String} {v : Dim → ℚ}
    (h : priorityWeights? p = some v) : ∀ d, 0 < v d := by
  unfold priorityWeights? at h
  split at h <;>
    first
    | exact Option.noConfusion h
    | (injection h with h2
       subst h2
       intro d
       cases d <;> norm_num)

theorem sum_pos_of_mem {l : List ℚ} (hne : l ≠ []) (hpos : ∀ x ∈ l, 0 < x) :
    0 < l.sum :=
  List.sum_pos l hpos hne

theorem avg_weights_pos (ps : List String) (d : Dim) : 0 < avg_weights ps d := by
  unfold avg_weights
  cases ps with
  | nil => norm_num
  | cons p0 ps' =>
    apply div_pos
    · apply sum_pos_of_mem
      · simp
      · intro x hx
        obtain ⟨q, _, rfl⟩ := List.mem_map.mp hx
        cases hpw : priorityWeights? q with
        | none => simp [hpw]
        | some v => simpa [hpw] using priorityWeights_pos hpw d
    · have : (0 : ℚ) < ((ps'.length + 1 : ℕ) : ℚ) := by positivity
      simpa using this

theorem get_agent_mult_pos (a : String) (d : Dim) : 0 < get_agent_mult a d := by
  unfold get_agent_mult
  split <;> (try cases d) <;> norm_num

theorem get_skill_mult_pos (s : Option String) (d : Dim) : 0 < get_skill_mult s d := by
  cases s with
  | none => norm_num [get_skill_mult]
  | some lvl =>
    unfold get_skill_mult
    split <;> try cases d
    all_goals try norm_num
    all_goals (split <;> norm_num)

theorem score_dims_total_pos {dims : Dim → ℤ} {w am sm : Dim → ℚ}
    (hd : ∀ d, 1 ≤ dims d) (hw : ∀ d, 0 < w d) (ha : ∀ d, 0 < am d)
    (hs : ∀ d, 0 < sm d) : 0 < (score_dims dims w am sm).1 := by
  have hper : ∀ d, 0 < (dims d : ℚ) * w d * am d * sm d := by
    intro d
    have h1 : (1 : ℚ) ≤ (dims d : ℚ) := by exact_mod_cast hd d
    exact mul_pos (mul_pos (mul_pos (by linarith) (hw d)) (ha d)) (hs d)
  unfold score_dims
  simp only [DIMS, List.map_cons, List.map_nil, List.sum_cons, List.sum_nil]
  have p1 := hper .D1
  have p2 := hper .D2
  have p3 := hper .D3
  have p4 := hper .D4
  have p5 := hper .D5
  have p6 := hper .D6
  linarith

theorem use_case_raw_dims_ge_one (doc : String) (meta : UCMeta) (d : Dim) :
    1 ≤ use_case_raw_dims doc meta d :=
  le_max_left 1 _

theorem rankedUseCases_pos (req : AgentRequest) (cands : List UCCandidate) :
    ∀ x ∈ rankedUseCases req cands, 0 < x.2 := by
  intro x hx
  simp only [rankedUseCases, List.mem_insertionSort] at hx
  obtain ⟨uc, _, rfl⟩ := List.mem_map.mp hx
  exact score_dims_total_pos (use_case_raw_dims_ge_one uc.summary uc.metadata)
    (avg_weights_pos req.priorities) (get_agent_mult_pos req.agent_type)
    (get_skill_mult_pos req.experience_level)

theorem rankedFacts_pos (req : AgentRequest) {facts : List Factsheet}
    (hdims : ∀ f ∈ facts, ∀ d, (1 : ℤ) ≤ f.dims d) :
    ∀ x ∈ rankedFacts req facts, 0 < x.2 := by
  intro x hx
  simp only [rankedFacts, List.mem_insertionSort] at hx
  obtain ⟨f, hf, rfl⟩ := List.mem_map.mp hx
  exact score_dims_total_pos (hdims f hf) (avg_weights_pos req.priorities)
    (get_agent_mult_pos req.agent_type) (get_skill_mult_pos req.experience_level)

/-- C3: every candidate emitted by the scoring paths carries
`match_percent = round(normalized_score * 100)` clamped to `[0, 100]`
(for the two rankers the normalized score is `score_total` over the
guarded batch maximum; for `run_scoring` it is the already normalized
`score` field, whose rounded value lies in `[0, 100]`, so the clamp is the
identity there), and no emitted `match_percent` lies outside `[0, 100]`. -/
theorem match_percent_clamped_spec :
    (∀ (req : AgentRequest) (facts : List Factsheet),
      ∀ r ∈ rank_all_frameworks req facts,
        r.match_percent
            = pyClamp 0 100
                (pyRound (r.score_total / guardedBest (rankedFacts req facts) * 100))
          ∧ 0 ≤ r.match_percent ∧ r.match_percent ≤ 100) ∧
    (∀ (req : AgentRequest) (cands : List UCCandidate) (top_k : ℕ),
      ∀ r ∈ rank_bosch_use_cases_matrix req cands top_k,
        r.match_percent
            = pyClamp 0 100
                (pyRound (r.score_total / guardedBest (rankedUseCases req cands) * 100))
          ∧ 0 ≤ r.match_percent ∧ r.match_percent ≤ 100) ∧
    (∀ payload : ScoringPayload,
      ∀ r ∈ (run_scoring payload).framework_recommendations,
        r.match_percent = pyClamp 0 100 (pyRound (r.score * 100))
          ∧ 0 ≤ r.match_percent ∧ r.match_percent ≤ 100) := by
  refine ⟨?_, ?_, ?_⟩
  · intro req facts r hr
    simp only [rank_all_frameworks] at hr
    split at hr
    · cases hr
    · obtain ⟨ft, _, rfl⟩ := List.mem_map.mp hr
      exact ⟨rfl, pyClamp_nonneg _, pyClamp_le _⟩
  · intro req cands top_k r hr
    simp only [rank_bosch_use_cases_matrix] at hr
    split at hr
    · cases hr
    · obtain ⟨ut, _, rfl⟩ := List.mem_map.mp hr
      exact ⟨rfl, pyClamp_nonneg _, pyClamp_le _⟩
  · intro payload r hr
    simp only [run_scoring] at hr
    obtain ⟨fw, hfw, rfl⟩ := List.mem_map.mp hr
    have hfw2 : fw ∈ score_frameworks (orDefaultStr payload.agent_type "unknown")
        (orDefaultList payload.priorities) (orDefaultStr payload.use_case_text "")
        payload.experience_level := List.mem_of_mem_take hfw
    obtain ⟨hs0, hs1⟩ := score_frameworks_score_bounds hfw2
    have h0 : (0 : ℚ) ≤ fw.score * 100 := by linarith
    have h100 : fw.score * 100 ≤ ((100 : ℤ) : ℚ) := by
      push_cast
      linarith
    have hr0 : 0 ≤ pyRound (fw.score * 100) := pyRound_nonneg h0
    have hr100 : pyRound (fw.score * 100) ≤ 100 := pyRound_le h100
    exact ⟨(pyClamp_eq_self hr0 hr100).symm, hr0, hr100⟩

theorem rank_bosch_top (req : AgentRequest) (cands : List UCCandidate) (k : ℕ)
    (hc : cands ≠ []) (hk : 0 < k) :
    ∃ r rest, rank_bosch_use_cases_matrix req cands k = r :: rest
      ∧ r.match_percent = 100 ∧ r.score = 1 := by
  obtain ⟨h0, tl, hsort⟩ : ∃ h0 tl, rankedUseCases req cands = h0 :: tl := by
    cases hs : rankedUseCases req cands with
    | nil =>
      exfalso
      have hlen : (rankedUseCases req cands).length = cands.length := by
        simp [rankedUseCases, List.length_insertionSort, List.length_map]
      rw [hs] at hlen
      exact hc (List.length_eq_zero.mp hlen.symm)
    | cons h0 tl => exact ⟨h0, tl, rfl⟩
  have hpos : 0 < h0.2 :=
    rankedUseCases_pos req cands h0 (by rw [hsort]; exact List.mem_cons_self _ _)
  have hguard2 : guardedBest (h0 :: tl) = h0.2 := by
    unfold guardedBest
    simp only [batchBest]
    rw [if_neg (not_le.mpr hpos)]
  have hdiv : h0.2 / guardedBest (h0 :: tl) * 100 = ((100 : ℤ) : ℚ) := by
    rw [hguard2, div_self (ne_of_gt hpos)]
    norm_num
  have hne : cands.isEmpty = false := by
    cases cands with
    | nil => exact absurd rfl hc
    | cons a l => rfl
  cases k with
  | zero => exact absurd hk (lt_irrefl 0)
  | succ k1 =>
    simp only [rank_bosch_use_cases_matrix, hne, Bool.false_eq_true, if_false]
    rw [hsort, List.take_succ_cons, List.map_cons]
    refine ⟨_, _, rfl, ?_, ?_⟩
    · simp only [hdiv, pyRound_intCast]
      norm_num [pyClamp]
    · simp only [hdiv, pyRound_intCast]
      norm_num [pyClamp]

theorem rank_all_top (req : AgentRequest) (facts : List Factsheet) (hf : facts ≠ [])
    (hdims : ∀ f ∈ facts, ∀ d, (1 : ℤ) ≤ f.dims d) :
    ∃ r rest, rank_all_frameworks req facts = r :: rest
      ∧ r.match_percent = 100 ∧ r.score = 1 := by
  obtain ⟨h0, tl, hsort⟩ : ∃ h0 tl, rankedFacts req facts = h0 :: tl := by
    cases hs : rankedFacts req facts with
    | nil =>
      exfalso
      have hlen : (rankedFacts req facts).length = facts.length := by
        simp [rankedFacts, List.length_insertionSort, List.length_map]
      rw [hs] at hlen
      exact hf (List.length_eq_zero.mp hlen.symm)
    | cons h0 tl => exact ⟨h0, tl, rfl⟩
  have hpos : 0 < h0.2 :=
    rankedFacts_pos req hdims h0 (by rw [hsort]; exact List.mem_cons_self _ _)
  have hguard2 : guardedBest (h0 :: tl) = h0.2 := by
    unfold guardedBest
    simp only [batchBest]
    rw [if_neg (not_le.mpr hpos)]
  have hdiv : h0.2 / guardedBest (h0 :: tl) * 100 = ((100 : ℤ) : ℚ) := by
    rw [hguard2, div_self (ne_of_gt hpos)]
    norm_num
  have hne : facts.isEmpty = false := by
    cases facts with
    | nil => exact absurd rfl hf
    | cons a l => rfl
  simp only [rank_all_frameworks, hne, Bool.false_eq_true, if_false]
  rw [hsort, List.map_cons]
  refine ⟨_, _, rfl, ?_, ?_⟩
  · simp only [hdiv, pyRound_intCast]
    norm_num [pyClamp]
  · simp only [hdiv, pyRound_intCast]
    norm_num [pyClamp]

/-- C2 counterexample: `_load_framework_factsheets_from_chroma` /
`load_framework_factsheets` read `dims = int(meta.get(d, 3))` without
clamping, so a factsheet batch whose metadata carries `0` for every
dimension has best total `0`; the guard then substitutes divisor `1.0` and
the top-ranked candidate's `match_percent` is `0`, not `100`. -/
theorem rank_all_top_not_100_cex :
    (rank_all_frameworks reqUnknown [zeroFactsheet]).map RankedFramework.match_percent
        = [0]
      ∧ ((0 : ℤ) = 100 → False) := by
  constructor
  · have htotal : (score_dims zeroFactsheet.dims (avg_weights reqUnknown.priorities)
        (get_agent_mult reqUnknown.agent_type)
        (get_skill_mult reqUnknown.experience_level)).1 = 0 := by
      simp [score_dims, zeroFactsheet, DIMS]
    have hround : pyRound ((0 : ℚ)) = 0 := by
      norm_num [pyRound]
    simp [rank_all_frameworks, rankedFacts, List.insertionSort, List.orderedInsert,
      htotal, guardedBest, batchBest, hround, pyClamp]
  · decide

/-- C2 (amended): the top-ranked candidate's `match_percent` is exactly 100
for every non-empty use-case batch (whose raw dims are clamped to `[1, 5]`),
and for every non-empty factsheet batch whose stored dims are all at least
1; a factsheet batch with non-positive dims (possible, since factsheet dims
are read unclamped from store metadata) can instead normalize against the
substituted divisor `1.0` and yield a top `match_percent` below 100. -/
theorem top_match_percent_100 (req : AgentRequest) (cands : List UCCandidate)
    (facts : List Factsheet) (k : ℕ) (hc : cands ≠ []) (hk : 0 < k)
    (hf : facts ≠ []) (hdims : ∀ f ∈ facts, ∀ d, (1 : ℤ) ≤ f.dims d) :
    (∃ r rest, rank_bosch_use_cases_matrix req cands k = r :: rest
      ∧ r.match_percent = 100) ∧
    (∃ r rest, rank_all_frameworks req facts = r :: rest ∧ r.match_percent = 100) := by
  obtain ⟨r1, rest1, h1, h2, _⟩ := rank_bosch_top req cands k hc hk
  obtain ⟨r2, rest2, h3, h4, _⟩ := rank_all_top req facts hf hdims
  exact ⟨⟨r1, rest1, h1, h2⟩, ⟨r2, rest2, h3, h4⟩⟩

/-- C2 witness: the amended claim at a one-candidate batch and a
one-factsheet batch with the metadata default dims `3`. -/
theorem top_match_percent_100_witness :
    (∃ r rest, rank_bosch_use_cases_matrix reqUnknown [ucCandidate0] 3 = r :: rest
      ∧ r.match_percent = 100) ∧
    (∃ r rest, rank_all_frameworks reqUnknown [defaultFactsheet] = r :: rest
      ∧ r.match_percent = 100) :=
  top_match_percent_100 reqUnknown [ucCandidate0] [defaultFactsheet] 3
    (by simp) (by norm_num) (by simp)
    (by
      intro f hfm d
      rw [List.mem_singleton.mp hfm]
      norm_num [defaultFactsheet])

/-- C10: the `/use-cases` endpoint suggests frameworks exactly when the
ranked use-case list is empty: with at least one retrieved candidate the
top candidate's score normalizes to `1.0 ≥ 0.35` (every raw dim is clamped
to `[1, 5]` and all weights and multipliers are positive), so
`suggest_show_frameworks` is false; it is true only for an empty batch. -/
theorem use_cases_suggest_spec (req : AgentRequest) (cands : List UCCandidate) :
    (cands ≠ [] → (use_cases req cands).suggest_show_frameworks = false) ∧
    ((use_cases req cands).suggest_show_frameworks = true
      ↔ (use_cases req cands).use_cases = []) := by
  by_cases hc : cands = []
  · subst hc
    refine ⟨fun h => absurd rfl h, ?_⟩
    simp [use_cases, rank_bosch_use_cases_matrix]
  · obtain ⟨r, rest, hrank, _, hscore⟩ := rank_bosch_top req cands 3 hc (by norm_num)
    have hsuggest : (use_cases req cands).suggest_show_frameworks = false := by
      simp only [use_cases, hrank, hscore]
      norm_num
    refine ⟨fun _ => hsuggest, ?_⟩
    rw [hsuggest]
    simp only [use_cases, hrank]
    simp

/-- C10 witness: a single retrieved candidate yields
`suggest_show_frameworks = false`. -/
theorem use_cases_suggest_spec_witness :
    (use_cases reqUnknown [ucCandidate0]).suggest_show_frameworks = false :=
  (use_cases_suggest_spec reqUnknown [ucCandidate0]).1 (by simp)

end FrameworkConsultant
